import Mathlib

/-!
# Verification of the Holis Base Impacts data-processing pipeline

A shallow embedding of `src/data_processing.py` (pandas ETL pipeline):
loading/cleaning of transposed metadata spreadsheets, whitespace
normalization, wide-to-long reshaping of the impacts matrix, and the
two-step left-join merge.

Modelling conventions:
* A pandas `DataFrame` is a `Table`: a list of column labels (`header`)
  plus a list of rows, each row a list of `Cell`s positionally aligned
  with the header.  Row indices are positional, so pandas
  `reset_index(drop=True)` is the identity in this model.
* A cell is a Python string, a number, or a missing value (`NaN`/`None`).
  Numbers are modelled as `Rat`; non-finite floats (`inf`, `nan` literals)
  are outside the model.
* Fallible pandas operations (`KeyError` on a missing merge key or melt
  id column, `IndexError` on `iloc[0]` of an empty frame) return `Option`.
* pandas applies the generic text-trim loop only to object-dtype columns,
  but a non-object column contains no Python `str` cells, so applying the
  per-cell trim (which only changes `str` cells) to every column is
  extensionally the same; the model applies it to every column.
* In-place mutation (`metadata_df.columns = ...` inside `merge_all_data`)
  is modelled by explicit state passing: the function returns the
  post-call versions of the mutated argument tables alongside its result.
-/

/-- A cell of a DataFrame: a Python string, a number, or a missing value. -/
inductive Cell where
  | str (s : String)
  | num (q : Rat)
  | na
deriving DecidableEq

/-- A DataFrame: column labels plus rows of cells (positionally aligned). -/
structure Table where
  header : List String
  rows : List (List Cell)
deriving DecidableEq

/-- Whitespace characters removed by Python `str.strip()` (ASCII part). -/
def isSpaceChar (c : Char) : Bool :=
  c == ' ' || c == '\t' || c == '\n' || c == '\r' || c == '\x0b' || c == '\x0c'

/-- Remove leading and trailing whitespace from a character list. -/
def stripChars (l : List Char) : List Char :=
  ((l.dropWhile isSpaceChar).reverse.dropWhile isSpaceChar).reverse

/-- Python `str.strip()`: trim leading and trailing whitespace. -/
def pyStrip (s : String) : String := String.mk (stripChars s.data)

/-- The per-cell function of the generic text pass
`lambda x: x.strip() if isinstance(x, str) else x`. -/
def trimCell : Cell → Cell
  | Cell.str s => Cell.str (pyStrip s)
  | c => c

/-- pandas `Series.str.strip()` on an object column: strings are trimmed,
any non-string element becomes `NaN`. -/
def strStripCell : Cell → Cell
  | Cell.str s => Cell.str (pyStrip s)
  | _ => Cell.na

/-- Apply `f` to the cell at position `j` of a row (other cells unchanged). -/
def applyAt : Nat → (Cell → Cell) → List Cell → List Cell
  | _, _, [] => []
  | 0, f, c :: cs => f c :: cs
  | Nat.succ j, f, c :: cs => c :: applyAt j f cs

/-- Concatenation of the lists produced for each element (pandas builds the
output of a merge/melt by stacking per-element blocks in order). -/
def concatMap (f : α → List β) : List α → List β
  | [] => []
  | a :: t => f a ++ concatMap f t

/-- Position of the first column with the given label (pandas label lookup;
pandas raises on a missing label, callers guard membership separately). -/
def labelIdx : List String → String → Nat
  | [], _ => 0
  | h :: t, c => if h = c then 0 else labelIdx t c + 1

/-- The cell of row `r` in the column labelled `c` of a table with header
`hd` (missing positions read as `NaN`). -/
def cellAtCol (hd : List String) (r : List Cell) (c : String) : Cell :=
  (r.get? (labelIdx hd c)).getD Cell.na

/-- Interpret a row of cells as column labels; pandas column labels set from
a data row are the row's values, the model requires them to be strings
(the `.str.strip()` cleanup right after presupposes string labels). -/
def cellsAsStrs : List Cell → Option (List String)
  | [] => some []
  | Cell.str s :: t => (cellsAsStrs t).map (fun r => s :: r)
  | _ => none

/-- The slice `df.iloc[n:]` — drop the first `n` rows. -/
def sliceRows (n : Nat) (t : Table) : Table :=
  { t with rows := t.rows.drop n }

/-- The cleanup `df.columns = df.columns.str.strip()` — trim every column label. -/
def stripHeader (t : Table) : Table :=
  { t with header := t.header.map pyStrip }

/-- The step `df_transposed.columns = df_transposed.iloc[0]`: take row 0 of the grid
as the column labels; the rows (row 0 included) stay in place, exactly as
in pandas.  `none` on an empty grid (`iloc[0]` raises) or non-string
labels (outside the model, see `cellsAsStrs`). -/
def setHeaderFromFirstRow (g : List (List Cell)) : Option Table :=
  match g with
  | [] => none
  | r0 :: _ => (cellsAsStrs r0).map (fun hs => { header := hs, rows := g })

/-- The transposed-header normalizer shared by `load_and_clean_metadata`
and `load_and_clean_indicators`, applied to the already-transposed grid:
header from row 0, `[2:]` slice (dropping rows 0 and 1), index reset
(identity here), and `.str.strip()` on the column labels. -/
def normalizeHeaderBlock (g : List (List Cell)) : Option Table :=
  (setHeaderFromFirstRow g).map (fun t => stripHeader (sliceRows 2 t))

/-- The generic text pass of the loaders: apply the trim lambda to every
cell (see the header comment on object-dtype columns). -/
def trimTable (t : Table) : Table :=
  { t with rows := t.rows.map (List.map trimCell) }

/-- The step `df_transposed['UUID'] = df_transposed['UUID'].str.strip()` guarded by
`if 'UUID' in df_transposed.columns`. -/
def uuidStripPass (t : Table) : Table :=
  if "UUID" ∈ t.header then
    { t with rows := t.rows.map (applyAt (labelIdx t.header "UUID") strStripCell) }
  else t

/-- The full cell-text normalization of `load_and_clean_metadata`
(lines 34-41): the UUID-column strip, then the generic text pass. -/
def textNormalize (t : Table) : Table := trimTable (uuidStripPass t)

/-- The body of `load_and_clean_metadata` after `read_excel`: transpose (the original
header row becomes the transposed index and is discarded), normalize the
two-row header block, strip the UUID column, then the generic text pass. -/
def load_and_clean_metadata (df : Table) : Option Table :=
  (normalizeHeaderBlock (List.transpose df.rows)).map textNormalize

/-- The body of `load_and_clean_indicators` after `read_excel`: same normalizer, then
the generic text pass (no dedicated UUID step here). -/
def load_and_clean_indicators (df : Table) : Option Table :=
  (normalizeHeaderBlock (List.transpose df.rows)).map trimTable

/-- The column renaming of `load_and_clean_impacts`. -/
def impactsRename (c : String) : String :=
  if c = "UUID de la catégorie d'impacts" then "impact_category_uuid"
  else if c = "Nom anglais" then "impact_name_en"
  else if c = "Nom français" then "impact_name_fr"
  else if c = "Unité" then "unit"
  else c

/-- The renaming `df.rename(columns=...)`. -/
def renameCols (f : String → String) (t : Table) : Table :=
  { t with header := t.header.map f }

/-- The body of `load_and_clean_impacts` after `read_csv`: drop the first data row
(`df.iloc[1:]`, index reset is the identity here), then rename the four
identifier columns. -/
def load_and_clean_impacts (df : Table) : Table :=
  renameCols impactsRename (sliceRows 1 df)

/-- The fixed identifier-column set of `reshape_impacts_to_long`. -/
def id_cols : List String :=
  ["impact_category_uuid", "impact_name_en", "impact_name_fr", "unit"]

/-- The value columns discovered at run time:
`[col for col in impacts_df.columns if col not in id_cols]`. -/
def meltValueCols (t : Table) (idv : List String) : List String :=
  t.header.filter (fun c => decide (¬ c ∈ idv))

/-- The reshape `df.melt(id_vars=idv, value_vars=..., var_name=vn, value_name=valn)`:
for each value column (in header order) and each source row (in order),
one output row `[id values, column label, cell]`.  `none` when an id
column is missing (pandas raises `KeyError`). -/
def melt (t : Table) (idv : List String) (vn valn : String) : Option Table :=
  if ∀ c ∈ idv, c ∈ t.header then
    some { header := idv ++ [vn, valn],
           rows := concatMap (fun c =>
             t.rows.map (fun r =>
               idv.map (fun ic => cellAtCol t.header r ic) ++
                 [Cell.str c, cellAtCol t.header r c])) (meltValueCols t idv) }
  else none

/-- Sign of a Python float literal. -/
def parseSignChars : List Char → Int × List Char
  | '-' :: t => (-1, t)
  | '+' :: t => (1, t)
  | l => (1, l)

def isDigitChar (c : Char) : Bool := '0' ≤ c && c ≤ '9'

/-- Numeric value of a digit run. -/
def digitsVal (ds : List Char) : Nat :=
  ds.foldl (fun n c => n * 10 + (c.toNat - 48)) 0

/-- Value of the fractional digit run of a float literal. -/
def fracVal (ds : List Char) : Rat :=
  (digitsVal ds : Rat) / ((10 : Rat) ^ ds.length)

/-- Exponent part after `e`/`E`: optional sign then a nonempty digit run. -/
def parseExp (l : List Char) : Option Int :=
  match parseSignChars l with
  | (sg, l2) =>
    if !l2.isEmpty && l2.all isDigitChar then some (sg * (digitsVal l2 : Int))
    else none

/-- Unsigned Python float literal: digits, optional fraction, optional
exponent (at least one digit in mantissa).  `inf`/`nan` literals are
outside the model (see the header). -/
def parseUnsigned (l : List Char) : Option Rat :=
  match l.span isDigitChar with
  | (ip, rest) =>
    match rest with
    | [] => if ip.isEmpty then none else some (digitsVal ip : Rat)
    | '.' :: r2 =>
      match r2.span isDigitChar with
      | (fp, rest2) =>
        if ip.isEmpty && fp.isEmpty then none
        else
          match rest2 with
          | [] => some ((digitsVal ip : Rat) + fracVal fp)
          | 'e' :: r3 =>
            (parseExp r3).map (fun e => ((digitsVal ip : Rat) + fracVal fp) * (10 : Rat) ^ e)
          | 'E' :: r3 =>
            (parseExp r3).map (fun e => ((digitsVal ip : Rat) + fracVal fp) * (10 : Rat) ^ e)
          | _ => none
    | 'e' :: r3 =>
      if ip.isEmpty then none
      else (parseExp r3).map (fun e => (digitsVal ip : Rat) * (10 : Rat) ^ e)
    | 'E' :: r3 =>
      if ip.isEmpty then none
      else (parseExp r3).map (fun e => (digitsVal ip : Rat) * (10 : Rat) ^ e)
    | _ => none

/-- Parse a string as a (finite) float the way `pd.to_numeric` does:
surrounding whitespace ignored, optional sign, digits with optional
fraction and exponent; `none` when unparsable. -/
def parseNumeric (s : String) : Option Rat :=
  match stripChars s.data with
  | [] => none
  | l =>
    match parseSignChars l with
    | (sg, l2) => (parseUnsigned l2).map (fun q => (sg : Rat) * q)

/-- The coercion `pd.to_numeric(x, errors='coerce')` on one cell: numbers and missing
values pass through, strings parse or coerce to `NaN`. -/
def coerceNum : Cell → Cell
  | Cell.str s =>
    match parseNumeric s with
    | some q => Cell.num q
    | none => Cell.na
  | c => c

/-- The column update `df[name] = pd.to_numeric(df[name], errors='coerce')`. -/
def coerceColumn (name : String) (t : Table) : Table :=
  if name ∈ t.header then
    { t with rows := t.rows.map (applyAt (labelIdx t.header name) coerceNum) }
  else t

/-- The function `reshape_impacts_to_long`: melt on the fixed id columns, then numeric
coercion of `impact_value`. -/
def reshape_impacts_to_long (t : Table) : Option Table :=
  (melt t id_cols "process_uuid" "impact_value").map (coerceColumn "impact_value")

/-- Key comparison of a pandas merge: cells join on equality.  Unlike SQL,
pandas unifies the missing-value codes of both key sides
(`_factorize_keys`), so a missing key on the left joins to a missing key
on the right. -/
def keyMatch (k c : Cell) : Bool := decide (k = c)

/-- The rows of `t` whose `c`-column cell matches key `k` (in order). -/
def rowsMatching (t : Table) (c : String) (k : Cell) : List (List Cell) :=
  t.rows.filter (fun rr => keyMatch k (cellAtCol t.header rr c))

/-- The right-hand part a left-merge appends to a left row with key `k`
when the right keys are unique: the first matching right row, or a full
`NaN` fill when no right row matches. -/
def mergeSuffix (t : Table) (c : String) (k : Cell) : List Cell :=
  match t.rows.find? (fun rr => keyMatch k (cellAtCol t.header rr c)) with
  | some rr => rr
  | none => List.replicate t.header.length Cell.na

/-- The block of output rows a left merge produces for one left row: one
row per matching right row, or a single `NaN`-filled row when nothing
matches (`how='left'` keeps the row). -/
def expandRow (r : Table) (rk : String) (k : Cell) (lr : List Cell) : List (List Cell) :=
  match rowsMatching r rk k with
  | [] => [lr ++ List.replicate r.header.length Cell.na]
  | ms => ms.map (fun rr => lr ++ rr)

/-- Part of the pandas `items_overlap_with_suffix` duplicate check: does a
later (original, renamed) label pair rename to the same label as `p`
while differing from `p` originally?  Such a duplicate is one introduced
by the suffixing, not pre-existing. -/
def collidesWith (p : String × String) : List (String × String) → Bool
  | [] => false
  | q :: t => (decide (p.2 = q.2) && decide (¬ p.1 = q.1)) || collidesWith p t

/-- Whether any pair of (original, renamed) labels shows a duplicate
introduced by suffixing. -/
def collisionIn : List (String × String) → Bool
  | [] => false
  | p :: t => collidesWith p t || collisionIn t

/-- The pandas `items_overlap_with_suffix` error condition for the calls in
this program (left suffix empty, so the left labels are unchanged and
only the right side can gain a duplicate): `True` when suffixing the
right labels overlapping the left header introduces a duplicate among
the right labels that the unsuffixed right header did not have; pandas
raises `MergeError` in that case. -/
def suffixCollision (lh rh : List String) (suf : String) : Bool :=
  collisionIn (rh.zip (rh.map (fun c => if c ∈ lh then c ++ suf else c)))

/-- The join `left.merge(right, left_on=lk, right_on=rk, how='left',
suffixes=('', suf))`: output columns are the left columns followed by the
right columns, a right label colliding with a left one getting the
suffix; output rows are the per-left-row blocks in left order.  `none`
when a key column is missing (pandas raises `KeyError`) or when the
suffixing would introduce duplicate column labels (pandas raises
`MergeError`, see `suffixCollision`). -/
def leftMerge (l r : Table) (lk rk suf : String) : Option Table :=
  if lk ∈ l.header ∧ rk ∈ r.header then
    if suffixCollision l.header r.header suf then none
    else
      some { header := l.header ++ r.header.map (fun c => if c ∈ l.header then c ++ suf else c),
             rows := concatMap
               (fun lr => expandRow r rk (cellAtCol l.header lr lk) lr)
               l.rows }
  else none

/-- The function `merge_all_data`: strip the metadata and indicator column labels
(in-place in Python — the stripped tables are returned as the post-call
states of those arguments), then impacts ⋈ indicators on
`impact_category_uuid = UUID`, then ⋈ metadata on `process_uuid = UUID`,
both `how='left'`. -/
def merge_all_data (metadata_df impacts_long_df indicators_df : Table) :
    Option (Table × Table × Table) :=
  match leftMerge impacts_long_df (stripHeader indicators_df)
      "impact_category_uuid" "UUID" "_indicator" with
  | none => none
  | some merged =>
    match leftMerge merged (stripHeader metadata_df) "process_uuid" "UUID" "_process" with
    | none => none
    | some merged_final =>
      some (merged_final, stripHeader metadata_df, stripHeader indicators_df)

/-- The cell of `t` at row `i`, column position `j`, when present. -/
def Table.cell? (t : Table) (i j : Nat) : Option Cell :=
  (t.rows.get? i).bind (fun r => r.get? j)

/-- Concrete input exhibiting a numeric cell in the `UUID` column. -/
def c5Input : Table := ⟨["UUID"], [[Cell.num 5]]⟩

/-- A process-metadata table with a duplicated identifier. -/
def c7Meta : Table := ⟨["UUID"], [[Cell.str "P1"], [Cell.str "P1"]]⟩

def c7Ind : Table := ⟨["UUID"], [[Cell.str "I1"]]⟩

def c7Facts : Table :=
  ⟨["impact_category_uuid", "process_uuid"], [[Cell.str "I1", Cell.str "P1"]]⟩

/-- A process-metadata table whose identifier column label carries
whitespace. -/
def c8Meta : Table := ⟨[" UUID "], [[Cell.str "P1"]]⟩

def c8Ind : Table := ⟨["UUID"], [[Cell.str "I1"]]⟩

def c8Facts : Table :=
  ⟨["impact_category_uuid", "process_uuid"], [[Cell.str "I1", Cell.str "P1"]]⟩

def w1Meta : Table := ⟨[" UUID ", "name"], [[Cell.str "P1", Cell.str "proc"]]⟩

def w1Ind : Table := ⟨["UUID", "unit_ind"], [[Cell.str "I1", Cell.str "kg"]]⟩

def w1Facts : Table :=
  ⟨["impact_category_uuid", "process_uuid"],
   [[Cell.str "I1", Cell.str "P1"], [Cell.str "I2", Cell.str "PX"]]⟩

def w2Facts : Table :=
  ⟨["impact_category_uuid", "impact_name_en", "impact_name_fr", "unit", "P1", "P2"],
   [[Cell.str "I1", Cell.str "e", Cell.str "f", Cell.str "kg", Cell.str "1.5", Cell.str "n/a"]]⟩

def w8Meta : Table := ⟨["UUID"], ([] : List (List Cell))⟩

def w8Ind : Table := ⟨["UUID"], ([] : List (List Cell))⟩

def w8Facts : Table := ⟨["impact_category_uuid", "process_uuid"], ([] : List (List Cell))⟩

def w4Grid : List (List Cell) :=
  [[Cell.str " UUID ", Cell.str "Nom du flux"],
   [Cell.str "UUID", Cell.str "identifier"],
   [Cell.str "P1", Cell.str "flux one"],
   [Cell.str "P2", Cell.str "flux two"]]

def w6Table : Table := ⟨["UUID", "v"], [[Cell.str "P1", Cell.num 3], [Cell.na, Cell.str "ab"]]⟩

def w10Impacts : Table :=
  ⟨["UUID de la catégorie d'impacts", "Nom anglais", "Nom français", "Unité", "P1"],
   [[Cell.str "uuid-col-desc", Cell.str "hdr", Cell.str "hdr", Cell.str "hdr", Cell.str "desc"],
    [Cell.str "I1", Cell.str "en", Cell.str "fr", Cell.str "kg", Cell.str "2.5"]]⟩

/-- A cell is already trimmed: a text cell is fixed by `str.strip()`
(numeric and missing cells carry no whitespace to begin with). -/
def cellTrimmed : Cell → Prop
  | Cell.str s => pyStrip s = s
  | _ => True

instance cellTrimmedDec (c : Cell) : Decidable (cellTrimmed c) :=
  match c with
  | Cell.str s => inferInstanceAs (Decidable (pyStrip s = s))
  | Cell.num _ => inferInstanceAs (Decidable True)
  | Cell.na => inferInstanceAs (Decidable True)

theorem dropWhile_self (p : Char → Bool) (l : List Char) :
    (l.dropWhile p).dropWhile p = l.dropWhile p := by
  induction l with
  | nil => rfl
  | cons a t ih =>
    by_cases h : p a
    · simp [List.dropWhile_cons, h, ih]
    · simp [List.dropWhile_cons, h]

theorem dropWhile_head_false (p : Char → Bool) (l : List Char) (a : Char) (t : List Char)
    (h : l.dropWhile p = a :: t) : p a = false := by
  induction l with
  | nil => simp at h
  | cons b u ih =>
    by_cases hb : p b
    · rw [List.dropWhile_cons, if_pos hb] at h; exact ih h
    · rw [List.dropWhile_cons, if_neg hb] at h
      cases h
      exact Bool.of_not_eq_true hb

theorem dropWhile_append_last (p : Char → Bool) (a : Char) (ha : p a = false)
    (xs : List Char) : (xs ++ [a]).dropWhile p = xs.dropWhile p ++ [a] := by
  induction xs with
  | nil => simp [List.dropWhile_cons, ha]
  | cons b u ih =>
    by_cases hb : p b
    · simp [List.dropWhile_cons, hb, ih]
    · simp [List.dropWhile_cons, hb]

theorem stripChars_idem (l : List Char) : stripChars (stripChars l) = stripChars l := by
  unfold stripChars
  cases hA : l.dropWhile isSpaceChar with
  | nil => simp
  | cons a as =>
    have ha : isSpaceChar a = false := dropWhile_head_false _ _ _ _ hA
    rw [List.reverse_cons, dropWhile_append_last _ _ ha, List.reverse_append]
    simp only [List.reverse_cons, List.reverse_nil, List.nil_append, List.singleton_append,
      List.dropWhile_cons, ha]
    simp only [Bool.false_eq_true, if_false, List.reverse_cons, List.reverse_reverse,
      dropWhile_append_last _ _ ha, dropWhile_self, List.reverse_append]
    simp

theorem pyStrip_idem (s : String) : pyStrip (pyStrip s) = pyStrip s :=
  congrArg String.mk (stripChars_idem s.data)

theorem trimCell_strStripCell (c : Cell) :
    trimCell (strStripCell c) = strStripCell c := by
  cases c <;> simp [trimCell, strStripCell, pyStrip_idem]

theorem concatMap_eq_map (f : α → List β) (g : α → β) (l : List α)
    (h : ∀ a ∈ l, f a = [g a]) : concatMap f l = l.map g := by
  induction l with
  | nil => rfl
  | cons a t ih =>
    simp only [concatMap, List.map_cons, h a (List.mem_cons_self a t)]
    rw [ih (fun b hb => h b (List.mem_cons_of_mem a hb))]
    rfl

theorem length_concatMap_const (f : α → List β) (l : List α) (n : Nat)
    (h : ∀ a ∈ l, (f a).length = n) : (concatMap f l).length = l.length * n := by
  induction l with
  | nil => simp [concatMap]
  | cons a t ih =>
    simp only [concatMap, List.length_append, List.length_cons,
      h a (List.mem_cons_self a t), ih (fun b hb => h b (List.mem_cons_of_mem a hb))]
    ring

theorem length_concatMap_ge (f : α → List β) (l : List α)
    (h : ∀ a ∈ l, 1 ≤ (f a).length) : l.length ≤ (concatMap f l).length := by
  induction l with
  | nil => simp [concatMap]
  | cons a t ih =>
    simp only [concatMap, List.length_append, List.length_cons]
    have h1 := h a (List.mem_cons_self a t)
    have h2 := ih (fun b hb => h b (List.mem_cons_of_mem a hb))
    omega

theorem mem_concatMap_of (f : α → List β) (l : List α) (a : α) (b : β)
    (ha : a ∈ l) (hb : b ∈ f a) : b ∈ concatMap f l := by
  induction l with
  | nil => cases ha
  | cons x t ih =>
    rcases List.mem_cons.mp ha with h | h
    · subst h; exact List.mem_append_left _ hb
    · exact List.mem_append_right _ (ih h)

theorem labelIdx_lt_of_mem (l : List String) (c : String) (h : c ∈ l) :
    labelIdx l c < l.length := by
  induction l with
  | nil => cases h
  | cons x t ih =>
    by_cases hx : x = c
    · simp [labelIdx, hx]
    · rcases List.mem_cons.mp h with h' | h'
      · exact absurd h'.symm hx
      · simp only [labelIdx, if_neg hx, List.length_cons]
        exact Nat.succ_lt_succ (ih h')

theorem labelIdx_append_left (l m : List String) (c : String) (h : c ∈ l) :
    labelIdx (l ++ m) c = labelIdx l c := by
  induction l with
  | nil => cases h
  | cons x t ih =>
    by_cases hx : x = c
    · simp [labelIdx, hx]
    · rcases List.mem_cons.mp h with h' | h'
      · exact absurd h'.symm hx
      · simp only [List.cons_append, labelIdx, if_neg hx]
        show labelIdx (t ++ m) c + 1 = labelIdx t c + 1
        rw [ih h']

theorem applyAt_append (f : Cell → Cell) (l m : List Cell) (n : Nat) :
    applyAt (l.length + n) f (l ++ m) = l ++ applyAt n f m := by
  induction l with
  | nil => simp
  | cons a t ih =>
    simp only [List.cons_append, List.length_cons]
    have : t.length + 1 + n = Nat.succ (t.length + n) := by omega
    rw [this]
    simp only [applyAt, ih]

theorem applyAt_get? (j k : Nat) (f : Cell → Cell) (r : List Cell) :
    (applyAt j f r).get? k = if k = j then (r.get? j).map f else r.get? k := by
  induction r generalizing j k with
  | nil => simp [applyAt]
  | cons a t ih =>
    cases j with
    | zero =>
      cases k with
      | zero => simp [applyAt]
      | succ k2 => simp [applyAt]
    | succ j2 =>
      cases k with
      | zero => simp [applyAt]
      | succ k2 =>
        simp only [applyAt, List.get?_cons_succ, ih j2 k2, Nat.succ.injEq]

theorem applyAt_getElem? (j k : Nat) (f : Cell → Cell) (r : List Cell) :
    (applyAt j f r)[k]? = if k = j then r[j]?.map f else r[k]? := by
  have h := applyAt_get? j k f r
  simpa [List.get?_eq_getElem?] using h

theorem keyMatch_eq (k c : Cell) (h : keyMatch k c = true) : c = k :=
  (of_decide_eq_true h).symm

theorem filter_len_le_one {α β : Type} (f : α → β) (p : α → Bool) (l : List α)
    (hp : ∀ a b, p a = true → p b = true → f a = f b)
    (hN : (l.map f).Nodup) : (l.filter p).length ≤ 1 := by
  induction l with
  | nil => simp
  | cons a t ih =>
    rw [List.map_cons, List.nodup_cons] at hN
    by_cases ha : p a
    · have ht : t.filter p = [] := by
        rw [List.filter_eq_nil_iff]
        intro b hb hpb
        exact hN.1 (List.mem_map.mpr ⟨b, hb, hp b a hpb ha⟩)
      simp [List.filter_cons, ha, ht]
    · simp only [List.filter_cons, ha, if_false, Bool.false_eq_true]
      exact ih hN.2

theorem find?_of_filter_head (p : α → Bool) (l : List α) (x : α) (xs : List α)
    (h : l.filter p = x :: xs) : l.find? p = some x := by
  induction l with
  | nil => simp at h
  | cons a t ih =>
    by_cases ha : p a
    · rw [List.filter_cons_of_pos ha] at h
      cases h
      simp [List.find?_cons, ha]
    · rw [List.filter_cons_of_neg ha] at h
      simp [List.find?_cons, ha, ih h]

theorem find?_none_of_filter_nil (p : α → Bool) (l : List α) (h : l.filter p = []) :
    l.find? p = none := by
  rw [List.find?_eq_none]
  intro a ha
  have := List.filter_eq_nil_iff.mp h a ha
  simpa using this

theorem mergeSuffix_of_nil (t : Table) (c : String) (k : Cell)
    (h : rowsMatching t c k = []) :
    mergeSuffix t c k = List.replicate t.header.length Cell.na := by
  unfold rowsMatching at h
  unfold mergeSuffix
  rw [find?_none_of_filter_nil _ _ h]

theorem expandRow_len_pos (r : Table) (rk : String) (k : Cell) (lr : List Cell) :
    1 ≤ (expandRow r rk k lr).length := by
  cases h : rowsMatching r rk k with
  | nil => simp [expandRow, h]
  | cons x xs => simp [expandRow, h]

theorem expandRow_unique (r : Table) (rk : String) (k : Cell) (lr : List Cell)
    (hN : ((r.rows.map (fun rr => cellAtCol r.header rr rk)).map trimCell).Nodup) :
    expandRow r rk k lr = [lr ++ mergeSuffix r rk k] := by
  have hle : (rowsMatching r rk k).length ≤ 1 := by
    unfold rowsMatching
    apply filter_len_le_one (fun rr => trimCell (cellAtCol r.header rr rk))
    · intro a b hpa hpb
      rw [keyMatch_eq _ _ hpa, keyMatch_eq _ _ hpb]
    · rw [List.map_map] at hN
      exact hN
  cases h : rowsMatching r rk k with
  | nil =>
    simp [expandRow, h, mergeSuffix_of_nil _ _ _ h]
  | cons x xs =>
    have hxs : xs = [] := by
      rw [h, List.length_cons] at hle
      exact List.eq_nil_of_length_eq_zero (by omega)
    subst hxs
    have hfind : r.rows.find? (fun rr => keyMatch k (cellAtCol r.header rr rk)) = some x := by
      apply find?_of_filter_head
      exact h
    simp [expandRow, h, mergeSuffix, hfind]

theorem expandRow_length (r : Table) (rk : String) (k : Cell) (lr : List Cell) :
    (expandRow r rk k lr).length = max 1 (rowsMatching r rk k).length := by
  cases h : rowsMatching r rk k with
  | nil => simp [expandRow, h]
  | cons x xs =>
    simp only [expandRow, h, List.length_map, List.length_cons]
    omega

theorem expandRow_mem (r : Table) (rk : String) (k : Cell) (lr x : List Cell)
    (hx : x ∈ expandRow r rk k lr) : ∃ s, x = lr ++ s := by
  unfold expandRow at hx
  cases h : rowsMatching r rk k with
  | nil =>
    rw [h] at hx
    simp at hx
    exact ⟨_, hx⟩
  | cons a as =>
    rw [h] at hx
    obtain ⟨rr, -, hrr⟩ := List.mem_map.mp hx
    exact ⟨rr, hrr.symm⟩

theorem exists_mem_expandRow (r : Table) (rk : String) (k : Cell) (lr : List Cell) :
    ∃ x, x ∈ expandRow r rk k lr := by
  cases h : expandRow r rk k lr with
  | nil =>
    have hp := expandRow_len_pos r rk k lr
    rw [h] at hp
    simp at hp
  | cons a as => exact ⟨a, List.mem_cons_self a as⟩

theorem cellAtCol_append_left (lh rh : List String) (c : String) (hc : c ∈ lh)
    (fr s : List Cell) (hlt : labelIdx lh c < fr.length) :
    cellAtCol (lh ++ rh) (fr ++ s) c = cellAtCol lh fr c := by
  unfold cellAtCol
  rw [labelIdx_append_left _ _ _ hc, List.get?_append hlt]

theorem expandRow_key_stable (r : Table) (rk : String) (k : Cell) (lr : List Cell)
    (lh rh : List String) (c : String) (hc : c ∈ lh) (hlt : labelIdx lh c < lr.length)
    (x : List Cell) (hx : x ∈ expandRow r rk k lr) :
    cellAtCol (lh ++ rh) x c = cellAtCol lh lr c := by
  obtain ⟨s, rfl⟩ := expandRow_mem r rk k lr x hx
  exact cellAtCol_append_left lh rh c hc lr s hlt

theorem length_concatMap (f : α → List β) (l : List α) :
    (concatMap f l).length = (l.map (fun a => (f a).length)).sum := by
  induction l with
  | nil => rfl
  | cons a t ih => simp [concatMap, ih]

theorem concatMap_concatMap (f : α → List β) (g : β → List γ) (l : List α) :
    concatMap g (concatMap f l) = concatMap (fun a => concatMap g (f a)) l := by
  induction l with
  | nil => rfl
  | cons a t ih =>
    show concatMap g (f a ++ concatMap f t) = concatMap g (f a) ++ _
    rw [← ih]
    induction f a with
    | nil => rfl
    | cons b u ihb =>
      show g b ++ concatMap g (u ++ concatMap f t) = (g b ++ concatMap g u) ++ _
      rw [ihb, List.append_assoc]

theorem sum_map_const_nat (l : List α) (m : Nat) :
    (l.map (fun _ => m)).sum = l.length * m := by
  induction l with
  | nil => simp
  | cons a t ih => simp [ih, Nat.succ_mul, Nat.add_comm]

theorem leftMerge_eq (l r : Table) (lk rk suf : String)
    (hlk : lk ∈ l.header) (hrk : rk ∈ r.header)
    (hcol : suffixCollision l.header r.header suf = false) :
    leftMerge l r lk rk suf =
      some { header := l.header ++ r.header.map (fun c => if c ∈ l.header then c ++ suf else c),
             rows := concatMap
               (fun lr => expandRow r rk (cellAtCol l.header lr lk) lr) l.rows } := by
  unfold leftMerge
  rw [if_pos ⟨hlk, hrk⟩, hcol]
  rfl

theorem leftMerge_unique (l r : Table) (lk rk suf : String)
    (hlk : lk ∈ l.header) (hrk : rk ∈ r.header)
    (hcol : suffixCollision l.header r.header suf = false)
    (hN : ((r.rows.map (fun rr => cellAtCol r.header rr rk)).map trimCell).Nodup) :
    leftMerge l r lk rk suf =
      some { header := l.header ++ r.header.map (fun c => if c ∈ l.header then c ++ suf else c),
             rows := l.rows.map (fun lr => lr ++ mergeSuffix r rk (cellAtCol l.header lr lk)) } := by
  rw [leftMerge_eq l r lk rk suf hlk hrk hcol,
    concatMap_eq_map _ (fun lr => lr ++ mergeSuffix r rk (cellAtCol l.header lr lk)) _
      (fun lr _ => expandRow_unique r rk (cellAtCol l.header lr lk) lr hN)]

theorem coerceColumn_len (n : String) (t : Table) :
    (coerceColumn n t).rows.length = t.rows.length := by
  unfold coerceColumn
  by_cases h : n ∈ t.header
  · simp [h]
  · simp [h]

theorem coerceColumn_rows_of_mem (n : String) (t : Table) (hn : n ∈ t.header)
    (b : List Cell) (hb : b ∈ t.rows) :
    applyAt (labelIdx t.header n) coerceNum b ∈ (coerceColumn n t).rows := by
  unfold coerceColumn
  rw [if_pos hn]
  exact List.mem_map.mpr ⟨b, hb, rfl⟩

theorem trimTable_cell (t : Table) (i j : Nat) :
    (trimTable t).cell? i j = (t.cell? i j).map trimCell := by
  unfold trimTable Table.cell?
  cases hrow : t.rows[i]? with
  | none => simp [List.getElem?_map, hrow]
  | some r =>
    cases hcell : r[j]? with
    | none => simp [List.getElem?_map, hrow, hcell]
    | some c => simp [List.getElem?_map, hrow, hcell]

theorem uuidStripPass_cell (t : Table) (i j : Nat) :
    (uuidStripPass t).cell? i j =
      (t.cell? i j).map (fun c =>
        if "UUID" ∈ t.header ∧ j = labelIdx t.header "UUID" then strStripCell c else c) := by
  unfold uuidStripPass Table.cell?
  by_cases hu : "UUID" ∈ t.header
  · rw [if_pos hu]
    cases hrow : t.rows[i]? with
    | none => simp [List.getElem?_map, hrow]
    | some r =>
      by_cases hj : j = labelIdx t.header "UUID"
      · subst hj
        simp [List.getElem?_map, hrow, applyAt_getElem?, hu]
      · cases hcell : r[j]? with
        | none => simp [List.getElem?_map, hrow, applyAt_getElem?, hj, hu, hcell]
        | some c => simp [List.getElem?_map, hrow, applyAt_getElem?, hj, hu, hcell]
  · rw [if_neg hu]
    cases hrow : t.rows[i]? with
    | none => simp [hrow]
    | some r =>
      cases hcell : r[j]? with
      | none => simp [hrow, hcell, hu]
      | some c => simp [hrow, hcell, hu]

theorem textNormalize_cell (t : Table) (i j : Nat) :
    (textNormalize t).cell? i j =
      (t.cell? i j).map (fun c =>
        if "UUID" ∈ t.header ∧ j = labelIdx t.header "UUID" then trimCell (strStripCell c)
        else trimCell c) := by
  unfold textNormalize
  rw [trimTable_cell, uuidStripPass_cell, Option.map_map]
  cases h : t.cell? i j with
  | none => rfl
  | some c =>
    by_cases hc : ("UUID" ∈ t.header ∧ j = labelIdx t.header "UUID")
    · simp [hc, Function.comp]
    · simp [hc, Function.comp]

/-- C4: for every transposed source table whose row 0 holds (string) labels,
the shared normalizer stage of `load_and_clean_metadata` and
`load_and_clean_indicators` returns a table whose column names are row 0
trimmed of surrounding whitespace and whose data rows are exactly rows 2
onward of the transposed table (rows 0 and 1 discarded); the positional
row model makes the reset contiguous 0-based index implicit. -/
theorem c4_normalizer_header_block (g : List (List Cell)) (r0 : List Cell)
    (rest : List (List Cell)) (hg : g = r0 :: rest)
    (ss : List String) (hs : cellsAsStrs r0 = some ss) :
    normalizeHeaderBlock g = some { header := ss.map pyStrip, rows := g.drop 2 } := by
  subst hg
  simp [normalizeHeaderBlock, setHeaderFromFirstRow, hs, stripHeader, sliceRows]

/-- Witness for C4 at a concrete transposed 4-row grid. -/
theorem c4_normalizer_header_block_witness :
    normalizeHeaderBlock w4Grid =
      some { header := ["UUID", "Nom du flux"],
             rows := [[Cell.str "P1", Cell.str "flux one"],
                      [Cell.str "P2", Cell.str "flux two"]] } := by
  have h := c4_normalizer_header_block w4Grid
    [Cell.str " UUID ", Cell.str "Nom du flux"]
    [[Cell.str "UUID", Cell.str "identifier"],
     [Cell.str "P1", Cell.str "flux one"],
     [Cell.str "P2", Cell.str "flux two"]]
    rfl [" UUID ", "Nom du flux"] rfl
  rw [h]
  rfl

/-- C10: `load_and_clean_impacts` returns the parsed table with data row 0
removed (index reset is implicit in the positional model) and the four
identifier columns renamed; on a nonempty parse the output has exactly
one row fewer. -/
theorem c10_impacts_first_row_dropped (df : Table) :
    (load_and_clean_impacts df).rows = df.rows.drop 1 ∧
    (load_and_clean_impacts df).header = df.header.map impactsRename ∧
    (df.rows ≠ [] → (load_and_clean_impacts df).rows.length + 1 = df.rows.length) := by
  refine ⟨rfl, rfl, fun h => ?_⟩
  show (df.rows.drop 1).length + 1 = df.rows.length
  rw [List.length_drop]
  exact Nat.succ_pred_eq_of_pos (List.length_pos.mpr h)

/-- Witness for C10 at a concrete two-row impacts table. -/
theorem c10_impacts_witness :
    (load_and_clean_impacts w10Impacts).rows =
      [[Cell.str "I1", Cell.str "en", Cell.str "fr", Cell.str "kg", Cell.str "2.5"]] ∧
    (load_and_clean_impacts w10Impacts).header =
      ["impact_category_uuid", "impact_name_en", "impact_name_fr", "unit", "P1"] ∧
    (load_and_clean_impacts w10Impacts).rows.length + 1 = w10Impacts.rows.length := by
  have h := c10_impacts_first_row_dropped w10Impacts
  exact ⟨by rw [h.1]; rfl, by rw [h.2.1]; rfl, h.2.2 (by decide)⟩

/-- C6: the whitespace-trimming pass is a no-op on a table whose text
cells are already trimmed. -/
theorem c6_text_normalization_idem (t : Table)
    (h : ∀ r ∈ t.rows, ∀ c ∈ r, cellTrimmed c) :
    trimTable t = t := by
  unfold trimTable
  cases t with
  | mk hd rows =>
    simp only
    congr 1
    have hrow : ∀ r ∈ rows, List.map trimCell r = r := by
      intro r hr
      have hc : ∀ c ∈ r, trimCell c = c := by
        intro c hc
        cases c with
        | str s =>
          have := h r hr (Cell.str s) hc
          simp only [cellTrimmed] at this
          simp [trimCell, this]
        | num q => rfl
        | na => rfl
      calc r.map trimCell = r.map id := List.map_congr_left hc
        _ = r := List.map_id r
    calc rows.map (List.map trimCell) = rows.map id := List.map_congr_left hrow
      _ = rows := List.map_id rows

/-- Witness for C6 at a concrete already-trimmed table. -/
theorem c6_text_normalization_idem_witness : trimTable w6Table = w6Table :=
  c6_text_normalization_idem w6Table (by decide)

/-- C2: for every input table carrying the four identifier columns, the
reshape returns a table with exactly `(#input rows) × (#value columns)`
rows, the value columns being the input columns outside the fixed
identifier set. -/
theorem c2_reshape_rowcount (t : Table) (h : ∀ c ∈ id_cols, c ∈ t.header) :
    ∃ out, reshape_impacts_to_long t = some out ∧
      out.rows.length = t.rows.length * (meltValueCols t id_cols).length := by
  have hm : melt t id_cols "process_uuid" "impact_value" =
      some { header := id_cols ++ ["process_uuid", "impact_value"],
             rows := concatMap (fun c => t.rows.map (fun r =>
               id_cols.map (fun ic => cellAtCol t.header r ic) ++
                 [Cell.str c, cellAtCol t.header r c])) (meltValueCols t id_cols) } := by
    unfold melt
    rw [if_pos h]
  refine ⟨coerceColumn "impact_value"
    { header := id_cols ++ ["process_uuid", "impact_value"],
      rows := concatMap (fun c => t.rows.map (fun r =>
        id_cols.map (fun ic => cellAtCol t.header r ic) ++
          [Cell.str c, cellAtCol t.header r c])) (meltValueCols t id_cols) }, ?_, ?_⟩
  · unfold reshape_impacts_to_long
    rw [hm]
    rfl
  · rw [coerceColumn_len]
    show (concatMap _ (meltValueCols t id_cols)).length = _
    rw [length_concatMap_const _ _ t.rows.length (fun c _ => List.length_map _ _)]
    exact Nat.mul_comm _ _

/-- Witness for C2 at a concrete 1 × 2 impacts table (output 2 = 1 × 2). -/
theorem c2_reshape_rowcount_witness :
    ∃ out, reshape_impacts_to_long w2Facts = some out ∧
      out.rows.length = w2Facts.rows.length * (meltValueCols w2Facts id_cols).length :=
  c2_reshape_rowcount w2Facts (by decide)

/-- C3: an unparsable value cell (e.g. the literal `"n/a"`) does not make
the reshape fail: the reshape still returns a table of full size, and the
output row built from that cell carries a missing `impact_value`. -/
theorem c3_unparsable_cell_missing (t : Table) (h : ∀ c ∈ id_cols, c ∈ t.header)
    (cn : String) (hcn : cn ∈ meltValueCols t id_cols)
    (r : List Cell) (hr : r ∈ t.rows)
    (s : String) (hcell : cellAtCol t.header r cn = Cell.str s)
    (hbad : parseNumeric s = none) :
    ∃ out, reshape_impacts_to_long t = some out ∧
      (id_cols.map (fun ic => cellAtCol t.header r ic) ++ [Cell.str cn, Cell.na]) ∈ out.rows ∧
      out.rows.length = t.rows.length * (meltValueCols t id_cols).length := by
  have hm : melt t id_cols "process_uuid" "impact_value" =
      some { header := id_cols ++ ["process_uuid", "impact_value"],
             rows := concatMap (fun c => t.rows.map (fun r =>
               id_cols.map (fun ic => cellAtCol t.header r ic) ++
                 [Cell.str c, cellAtCol t.header r c])) (meltValueCols t id_cols) } := by
    unfold melt
    rw [if_pos h]
  have hmem0 :
      (id_cols.map (fun ic => cellAtCol t.header r ic) ++ [Cell.str cn, cellAtCol t.header r cn]) ∈
        concatMap (fun c => t.rows.map (fun r =>
          id_cols.map (fun ic => cellAtCol t.header r ic) ++
            [Cell.str c, cellAtCol t.header r c])) (meltValueCols t id_cols) :=
    mem_concatMap_of _ _ cn _ hcn (List.mem_map.mpr ⟨r, hr, rfl⟩)
  have hlen4 : (id_cols.map (fun ic => cellAtCol t.header r ic)).length = 4 := by
    rw [List.length_map]
    rfl
  have happly : applyAt 5 coerceNum
      (id_cols.map (fun ic => cellAtCol t.header r ic) ++ [Cell.str cn, cellAtCol t.header r cn]) =
      id_cols.map (fun ic => cellAtCol t.header r ic) ++ [Cell.str cn, Cell.na] := by
    have h5 : (5 : Nat) = (id_cols.map (fun ic => cellAtCol t.header r ic)).length + 1 := by
      rw [hlen4]
    rw [h5, applyAt_append]
    congr 1
    show [Cell.str cn, coerceNum (cellAtCol t.header r cn)] = [Cell.str cn, Cell.na]
    rw [hcell]
    simp [coerceNum, hbad]
  refine ⟨coerceColumn "impact_value"
    { header := id_cols ++ ["process_uuid", "impact_value"],
      rows := concatMap (fun c => t.rows.map (fun r =>
        id_cols.map (fun ic => cellAtCol t.header r ic) ++
          [Cell.str c, cellAtCol t.header r c])) (meltValueCols t id_cols) }, ?_, ?_, ?_⟩
  · unfold reshape_impacts_to_long
    rw [hm]
    rfl
  · have hmm := coerceColumn_rows_of_mem "impact_value"
      { header := id_cols ++ ["process_uuid", "impact_value"],
        rows := concatMap (fun c => t.rows.map (fun r =>
          id_cols.map (fun ic => cellAtCol t.header r ic) ++
            [Cell.str c, cellAtCol t.header r c])) (meltValueCols t id_cols) }
      (by show "impact_value" ∈ id_cols ++ ["process_uuid", "impact_value"]; decide) _ hmem0
    have hidx : labelIdx (id_cols ++ ["process_uuid", "impact_value"]) "impact_value" = 5 := by
      decide
    rw [hidx] at hmm
    rw [happly] at hmm
    exact hmm
  · rw [coerceColumn_len]
    show (concatMap _ (meltValueCols t id_cols)).length = _
    rw [length_concatMap_const _ _ t.rows.length (fun c _ => List.length_map _ _)]
    exact Nat.mul_comm _ _

/-- Witness for C3 at a concrete table with the literal `"n/a"` in value
column `P2`. -/
theorem c3_unparsable_cell_missing_witness :
    ∃ out, reshape_impacts_to_long w2Facts = some out ∧
      (id_cols.map (fun ic => cellAtCol w2Facts.header
          [Cell.str "I1", Cell.str "e", Cell.str "f", Cell.str "kg", Cell.str "1.5", Cell.str "n/a"] ic) ++
        [Cell.str "P2", Cell.na]) ∈ out.rows ∧
      out.rows.length = w2Facts.rows.length * (meltValueCols w2Facts id_cols).length :=
  c3_unparsable_cell_missing w2Facts (by decide) "P2" (by decide)
    [Cell.str "I1", Cell.str "e", Cell.str "f", Cell.str "kg", Cell.str "1.5", Cell.str "n/a"]
    (by decide) "n/a" (by decide) (by decide)

/-- C5 counterexample: the claim predicts that a numeric cell is left
unchanged by the text-normalization pass; but the dedicated
`.str.strip()` on the `UUID` column turns the numeric cell `5` into a
missing value, so the pass is not the identity on this all-numeric
table. -/
theorem c5_counterexample :
    textNormalize c5Input ≠ c5Input ∧ c5Input.rows = [[Cell.num 5]] := by
  decide

/-- C5 (amended): the text-normalization pass of the loaders trims every
text cell; it leaves numeric and missing cells unchanged except in the
designated `UUID` column, where `.str.strip()` replaces any non-text cell
by a missing value; and a text cell of the `UUID` column is already
trimmed by the dedicated identifier pass alone (before the generic
pass). -/
theorem c5_text_normalization_amended (t : Table) :
    (∀ i j s, t.cell? i j = some (Cell.str s) →
      (textNormalize t).cell? i j = some (Cell.str (pyStrip s))) ∧
    (∀ i j c, t.cell? i j = some c → (∀ s, c ≠ Cell.str s) →
      ¬ ("UUID" ∈ t.header ∧ j = labelIdx t.header "UUID") →
      (textNormalize t).cell? i j = some c) ∧
    (∀ i j c, t.cell? i j = some c → (∀ s, c ≠ Cell.str s) →
      ("UUID" ∈ t.header ∧ j = labelIdx t.header "UUID") →
      (textNormalize t).cell? i j = some Cell.na) ∧
    (∀ i j s, t.cell? i j = some (Cell.str s) →
      ("UUID" ∈ t.header ∧ j = labelIdx t.header "UUID") →
      (uuidStripPass t).cell? i j = some (Cell.str (pyStrip s))) := by
  refine ⟨?_, ?_, ?_, ?_⟩
  · intro i j s h
    rw [textNormalize_cell, h]
    by_cases hc : ("UUID" ∈ t.header ∧ j = labelIdx t.header "UUID")
    · simp [hc, strStripCell, trimCell, pyStrip_idem]
    · simp [hc, trimCell]
  · intro i j c h hns hcond
    rw [textNormalize_cell, h]
    simp only [Option.map_some', if_neg hcond]
    cases c with
    | str s => exact absurd rfl (hns s)
    | num q => rfl
    | na => rfl
  · intro i j c h hns hcond
    rw [textNormalize_cell, h]
    simp only [Option.map_some', if_pos hcond]
    cases c with
    | str s => exact absurd rfl (hns s)
    | num q => rfl
    | na => rfl
  · intro i j s h hcond
    rw [uuidStripPass_cell, h]
    simp [hcond, strStripCell]

/-- Witness for the amended C5: a text identifier is trimmed and a numeric
cell outside the identifier column is untouched. -/
theorem c5_text_normalization_amended_witness :
    (textNormalize ⟨["UUID", "v"], [[Cell.str " P1 ", Cell.num 2]]⟩).cell? 0 0 =
      some (Cell.str "P1") ∧
    (textNormalize ⟨["UUID", "v"], [[Cell.str " P1 ", Cell.num 2]]⟩).cell? 0 1 =
      some (Cell.num 2) := by
  constructor
  · have h := (c5_text_normalization_amended
      ⟨["UUID", "v"], [[Cell.str " P1 ", Cell.num 2]]⟩).1 0 0 " P1 " (by decide)
    rw [h]
    decide
  · exact (c5_text_normalization_amended ⟨["UUID", "v"], [[Cell.str " P1 ", Cell.num 2]]⟩).2.1
      0 1 (Cell.num 2) (by decide) (fun s hs => Cell.noConfusion hs) (by decide)

/-- C7 counterexample: with a duplicated key `"P1"` in the process-metadata
table, `merge_all_data` neither rejects the input nor signals anything: it
returns normally, and the single fact row comes back twice (silent
fan-out). -/
theorem c7_counterexample :
    (merge_all_data c7Meta c7Facts c7Ind).map (fun p => p.1.rows.length) = some 2 ∧
    c7Facts.rows.length = 1 := by
  decide

/-- C7 (amended): `merge_all_data` performs no duplicate-key validation
and emits no signal: whenever the join-key columns exist and the
suffixing introduces no duplicate labels (the only merge-time error
checks pandas performs), it returns a merged table — also on
duplicate-keyed metadata; no fact row is dropped (every fact row is the
left part of some output row), and the output carries exactly
`max 1 (#matching indicator rows) * max 1 (#matching metadata rows)`
rows per fact row, i.e. duplicate metadata keys silently produce one
output row per (fact row, matching metadata row) pair. -/
theorem c7_merge_silent_fanout (metadata_df impacts_long_df indicators_df : Table)
    (hum : "UUID" ∈ (stripHeader metadata_df).header)
    (hui : "UUID" ∈ (stripHeader indicators_df).header)
    (hki : "impact_category_uuid" ∈ impacts_long_df.header)
    (hkp : "process_uuid" ∈ impacts_long_df.header)
    (hrect : ∀ fr ∈ impacts_long_df.rows, fr.length = impacts_long_df.header.length)
    (hcol1 : suffixCollision impacts_long_df.header (stripHeader indicators_df).header
      "_indicator" = false)
    (hcol2 : suffixCollision (impacts_long_df.header ++
        (stripHeader indicators_df).header.map
          (fun c => if c ∈ impacts_long_df.header then c ++ "_indicator" else c))
      (stripHeader metadata_df).header "_process" = false) :
    ∃ out, merge_all_data metadata_df impacts_long_df indicators_df =
        some (out, stripHeader metadata_df, stripHeader indicators_df) ∧
      out.rows.length = (impacts_long_df.rows.map (fun fr =>
        max 1 (rowsMatching (stripHeader indicators_df) "UUID"
          (cellAtCol impacts_long_df.header fr "impact_category_uuid")).length *
        max 1 (rowsMatching (stripHeader metadata_df) "UUID"
          (cellAtCol impacts_long_df.header fr "process_uuid")).length)).sum ∧
      (∀ fr ∈ impacts_long_df.rows, ∃ s, (fr ++ s) ∈ out.rows) := by
  set ind2 : Table := stripHeader indicators_df
  set meta2 : Table := stripHeader metadata_df
  set renIH : List String :=
    ind2.header.map (fun c => if c ∈ impacts_long_df.header then c ++ "_indicator" else c)
  set H1 : List String := impacts_long_df.header ++ renIH
  have h1 := leftMerge_eq impacts_long_df ind2 "impact_category_uuid" "UUID" "_indicator"
    hki hui hcol1
  have hkp1 : "process_uuid" ∈ H1 := List.mem_append_left _ hkp
  have h2 := leftMerge_eq
    ⟨H1, concatMap (fun fr => expandRow ind2 "UUID"
      (cellAtCol impacts_long_df.header fr "impact_category_uuid") fr) impacts_long_df.rows⟩
    meta2 "process_uuid" "UUID" "_process" hkp1 hum hcol2
  refine ⟨⟨H1 ++ meta2.header.map (fun c => if c ∈ H1 then c ++ "_process" else c),
    concatMap (fun mr => expandRow meta2 "UUID" (cellAtCol H1 mr "process_uuid") mr)
      (concatMap (fun fr => expandRow ind2 "UUID"
        (cellAtCol impacts_long_df.header fr "impact_category_uuid") fr)
        impacts_long_df.rows)⟩, ?_, ?_, ?_⟩
  · unfold merge_all_data
    simp only [h1, h2]
  · show (concatMap _ (concatMap _ impacts_long_df.rows)).length = _
    rw [concatMap_concatMap, length_concatMap]
    apply congrArg List.sum
    apply List.map_congr_left
    intro fr hfr
    have hlt : labelIdx impacts_long_df.header "process_uuid" < fr.length := by
      rw [hrect fr hfr]
      exact labelIdx_lt_of_mem _ _ hkp
    have hstep : ∀ mr ∈ expandRow ind2 "UUID"
        (cellAtCol impacts_long_df.header fr "impact_category_uuid") fr,
        (expandRow meta2 "UUID" (cellAtCol H1 mr "process_uuid") mr).length =
          max 1 (rowsMatching meta2 "UUID"
            (cellAtCol impacts_long_df.header fr "process_uuid")).length := by
      intro mr hmr
      rw [expandRow_key_stable ind2 "UUID" _ fr impacts_long_df.header renIH
        "process_uuid" hkp hlt mr hmr]
      exact expandRow_length _ _ _ _
    rw [length_concatMap, List.map_congr_left hstep, sum_map_const_nat, expandRow_length]
  · intro fr hfr
    obtain ⟨x0, hx0⟩ := exists_mem_expandRow ind2 "UUID"
      (cellAtCol impacts_long_df.header fr "impact_category_uuid") fr
    obtain ⟨s1, hs1⟩ := expandRow_mem _ _ _ _ _ hx0
    subst hs1
    obtain ⟨y0, hy0⟩ := exists_mem_expandRow meta2 "UUID"
      (cellAtCol H1 (fr ++ s1) "process_uuid") (fr ++ s1)
    obtain ⟨s2, hs2⟩ := expandRow_mem _ _ _ _ _ hy0
    subst hs2
    refine ⟨s1 ++ s2, ?_⟩
    rw [← List.append_assoc]
    exact mem_concatMap_of _ _ (fr ++ s1) _
      (mem_concatMap_of _ _ fr _ hfr hx0) hy0

/-- Witness for the amended C7 at the duplicate-keyed tables of the
counterexample: the merge returns, the single fact row (1 indicator
match, 2 metadata matches) yields exactly 1 * 2 = 2 output rows, and the
fact row is still present as the left part of an output row. -/
theorem c7_merge_silent_fanout_witness :
    ∃ out, merge_all_data c7Meta c7Facts c7Ind =
        some (out, stripHeader c7Meta, stripHeader c7Ind) ∧
      out.rows.length = (c7Facts.rows.map (fun fr =>
        max 1 (rowsMatching (stripHeader c7Ind) "UUID"
          (cellAtCol c7Facts.header fr "impact_category_uuid")).length *
        max 1 (rowsMatching (stripHeader c7Meta) "UUID"
          (cellAtCol c7Facts.header fr "process_uuid")).length)).sum ∧
      (∀ fr ∈ c7Facts.rows, ∃ s, (fr ++ s) ∈ out.rows) :=
  c7_merge_silent_fanout c7Meta c7Facts c7Ind (by decide) (by decide) (by decide)
    (by decide) (by decide) (by decide) (by decide)

/-- C8 counterexample: `merge_all_data` succeeds on these inputs but the
post-call process-metadata table differs from the one passed in — its
column label `" UUID "` has been reassigned in place to `"UUID"`. -/
theorem c8_counterexample :
    (merge_all_data c8Meta c8Facts c8Ind).isSome = true ∧
    (merge_all_data c8Meta c8Facts c8Ind).map (fun p => p.2.1) ≠ some c8Meta := by
  decide

/-- C8 (amended): `merge_all_data` leaves the cell data of its metadata and
indicator arguments unchanged but reassigns their column labels in place
to the whitespace-trimmed labels; inputs whose labels are already trimmed
come back identical. -/
theorem c8_merge_mutates_only_labels
    (metadata_df impacts_long_df indicators_df out m2 i2 : Table)
    (h : merge_all_data metadata_df impacts_long_df indicators_df = some (out, m2, i2)) :
    m2.rows = metadata_df.rows ∧ i2.rows = indicators_df.rows ∧
    m2.header = metadata_df.header.map pyStrip ∧
    i2.header = indicators_df.header.map pyStrip ∧
    (metadata_df.header.map pyStrip = metadata_df.header → m2 = metadata_df) ∧
    (indicators_df.header.map pyStrip = indicators_df.header → i2 = indicators_df) := by
  unfold merge_all_data at h
  cases e1 : leftMerge impacts_long_df (stripHeader indicators_df)
      "impact_category_uuid" "UUID" "_indicator" with
  | none =>
    simp only [e1] at h
    exact Option.noConfusion h
  | some mg =>
    simp only [e1] at h
    cases e2 : leftMerge mg (stripHeader metadata_df) "process_uuid" "UUID" "_process" with
    | none =>
      simp only [e2] at h
      exact Option.noConfusion h
    | some mf =>
      simp only [e2] at h
      rw [Option.some.injEq, Prod.mk.injEq, Prod.mk.injEq] at h
      obtain ⟨-, h2, h3⟩ := h
      subst h2
      subst h3
      refine ⟨rfl, rfl, rfl, rfl, fun he => ?_, fun he => ?_⟩
      · show ({ metadata_df with header := metadata_df.header.map pyStrip } : Table) = metadata_df
        rw [he]
      · show ({ indicators_df with header := indicators_df.header.map pyStrip } : Table) = indicators_df
        rw [he]

/-- Witness for the amended C8 at concrete (empty-rowed) tables. -/
theorem c8_merge_mutates_only_labels_witness :
    (⟨["UUID"], []⟩ : Table).rows = w8Meta.rows ∧
    (⟨["UUID"], []⟩ : Table).rows = w8Ind.rows ∧
    (⟨["UUID"], []⟩ : Table).header = w8Meta.header.map pyStrip ∧
    (⟨["UUID"], []⟩ : Table).header = w8Ind.header.map pyStrip ∧
    (w8Meta.header.map pyStrip = w8Meta.header → (⟨["UUID"], []⟩ : Table) = w8Meta) ∧
    (w8Ind.header.map pyStrip = w8Ind.header → (⟨["UUID"], []⟩ : Table) = w8Ind) :=
  c8_merge_mutates_only_labels w8Meta w8Facts w8Ind
    ⟨["impact_category_uuid", "process_uuid", "UUID", "UUID_process"], []⟩
    ⟨["UUID"], []⟩ ⟨["UUID"], []⟩ (by decide)

/-- C1: with the trimmed identifier columns of both metadata tables
holding unique keys (and the merges raising neither `KeyError` nor the
suffix-collision `MergeError`, the two error paths of pandas merge),
`merge_all_data` returns exactly one output row per input fact row, in
order: row `i` of the output is row `i` of the fact table extended by
the matching indicator row and the matching process-metadata row, and a
fact row matching no metadata row still appears, its metadata part
filled with missing values instead of the row being dropped.  Matching
is pandas matching: a missing key joins only the (unique) missing
metadata key, if present. -/
theorem c1_merge_join_cardinality (metadata_df impacts_long_df indicators_df : Table)
    (hum : "UUID" ∈ (stripHeader metadata_df).header)
    (hui : "UUID" ∈ (stripHeader indicators_df).header)
    (hki : "impact_category_uuid" ∈ impacts_long_df.header)
    (hkp : "process_uuid" ∈ impacts_long_df.header)
    (hrect : ∀ fr ∈ impacts_long_df.rows, fr.length = impacts_long_df.header.length)
    (hcol1 : suffixCollision impacts_long_df.header (stripHeader indicators_df).header
      "_indicator" = false)
    (hcol2 : suffixCollision (impacts_long_df.header ++
        (stripHeader indicators_df).header.map
          (fun c => if c ∈ impacts_long_df.header then c ++ "_indicator" else c))
      (stripHeader metadata_df).header "_process" = false)
    (hnm : (((stripHeader metadata_df).rows.map
        (fun rr => cellAtCol (stripHeader metadata_df).header rr "UUID")).map trimCell).Nodup)
    (hni : (((stripHeader indicators_df).rows.map
        (fun rr => cellAtCol (stripHeader indicators_df).header rr "UUID")).map trimCell).Nodup) :
    ∃ out, merge_all_data metadata_df impacts_long_df indicators_df =
        some (out, stripHeader metadata_df, stripHeader indicators_df) ∧
      out.rows.length = impacts_long_df.rows.length ∧
      (∀ i fr, impacts_long_df.rows.get? i = some fr →
        out.rows.get? i = some ((fr ++
            mergeSuffix (stripHeader indicators_df) "UUID"
              (cellAtCol impacts_long_df.header fr "impact_category_uuid")) ++
            mergeSuffix (stripHeader metadata_df) "UUID"
              (cellAtCol impacts_long_df.header fr "process_uuid"))) ∧
      (∀ k, rowsMatching (stripHeader indicators_df) "UUID" k = [] →
        mergeSuffix (stripHeader indicators_df) "UUID" k =
          List.replicate (stripHeader indicators_df).header.length Cell.na) ∧
      (∀ k, rowsMatching (stripHeader metadata_df) "UUID" k = [] →
        mergeSuffix (stripHeader metadata_df) "UUID" k =
          List.replicate (stripHeader metadata_df).header.length Cell.na) := by
  set ind2 : Table := stripHeader indicators_df
  set meta2 : Table := stripHeader metadata_df
  set renIH : List String :=
    ind2.header.map (fun c => if c ∈ impacts_long_df.header then c ++ "_indicator" else c)
  set H1 : List String := impacts_long_df.header ++ renIH
  set g1 : List Cell → List Cell := fun lr =>
    lr ++ mergeSuffix ind2 "UUID" (cellAtCol impacts_long_df.header lr "impact_category_uuid")
  set g2 : List Cell → List Cell := fun lr =>
    lr ++ mergeSuffix meta2 "UUID" (cellAtCol H1 lr "process_uuid")
  have h1 := leftMerge_unique impacts_long_df ind2
    "impact_category_uuid" "UUID" "_indicator" hki hui hcol1 hni
  have hkp1 : "process_uuid" ∈ H1 := List.mem_append_left _ hkp
  have h2 := leftMerge_unique ⟨H1, impacts_long_df.rows.map g1⟩
    meta2 "process_uuid" "UUID" "_process" hkp1 hum hcol2 hnm
  refine ⟨⟨H1 ++ meta2.header.map (fun c => if c ∈ H1 then c ++ "_process" else c),
    (impacts_long_df.rows.map g1).map g2⟩, ?_, ?_, ?_, ?_, ?_⟩
  · unfold merge_all_data
    simp only [h1, h2]
  · simp only [List.length_map]
  · intro i fr hfr
    have hmem : fr ∈ impacts_long_df.rows := List.get?_mem hfr
    have hidx : labelIdx impacts_long_df.header "process_uuid" < fr.length := by
      rw [hrect fr hmem]
      exact labelIdx_lt_of_mem _ _ hkp
    have hkey : cellAtCol H1 (g1 fr) "process_uuid" =
        cellAtCol impacts_long_df.header fr "process_uuid" := by
      show cellAtCol H1 (fr ++ _) "process_uuid" = _
      unfold cellAtCol
      rw [labelIdx_append_left _ _ _ hkp, List.get?_append hidx]
    show ((impacts_long_df.rows.map g1).map g2).get? i = _
    rw [List.get?_map, List.get?_map, hfr]
    simp only [Option.map_some']
    show some (g2 (g1 fr)) = _
    rw [show g2 (g1 fr) = g1 fr ++ mergeSuffix meta2 "UUID" (cellAtCol H1 (g1 fr) "process_uuid")
      from rfl]
    rw [hkey]
  · intro k hk
    exact mergeSuffix_of_nil _ _ _ hk
  · intro k hk
    exact mergeSuffix_of_nil _ _ _ hk

/-- Witness for C1 at concrete tables: two fact rows, one joining to both
metadata tables and one (`"PX"`, `"I2"`) matching neither. -/
theorem c1_merge_join_cardinality_witness :
    ∃ out, merge_all_data w1Meta w1Facts w1Ind =
        some (out, stripHeader w1Meta, stripHeader w1Ind) ∧
      out.rows.length = w1Facts.rows.length ∧
      (∀ i fr, w1Facts.rows.get? i = some fr →
        out.rows.get? i = some ((fr ++
            mergeSuffix (stripHeader w1Ind) "UUID"
              (cellAtCol w1Facts.header fr "impact_category_uuid")) ++
            mergeSuffix (stripHeader w1Meta) "UUID"
              (cellAtCol w1Facts.header fr "process_uuid"))) ∧
      (∀ k, rowsMatching (stripHeader w1Ind) "UUID" k = [] →
        mergeSuffix (stripHeader w1Ind) "UUID" k =
          List.replicate (stripHeader w1Ind).header.length Cell.na) ∧
      (∀ k, rowsMatching (stripHeader w1Meta) "UUID" k = [] →
        mergeSuffix (stripHeader w1Meta) "UUID" k =
          List.replicate (stripHeader w1Meta).header.length Cell.na) :=
  c1_merge_join_cardinality w1Meta w1Facts w1Ind (by decide) (by decide) (by decide)
    (by decide) (by decide) (by decide) (by decide) (by decide) (by decide)
